import Mathlib

/-!
Verification development for the BarakahBoost daily-score pipeline.

The Python sources are shallowly embedded as Lean definitions:
  utils/scoring.py        -> the component scorers and the aggregator
  scripts/process_barakah.py  -> the feature builder
  scripts/calculate_barakah.py -> the per-row component computation
  scripts/barakah_model.py -> the analyzer control flow

Conventions used throughout the embedding:
  Python float arithmetic is modelled over the rationals (and over the
  reals where math.log appears); Python dicts are association lists with
  string keys; Python functions that can raise (KeyError on a missing
  config key, ZeroDivisionError, math domain errors) return Except.
  Float literals 0.6 and 0.4 are modelled as the exact rationals 3/5 and
  2/5.
-/

/-- Python dict .get with a default: first matching key of an association
list, or the default when the key is absent. -/
def dictGet {α : Type} (d : List (String × α)) (k : String) (default : α) : α :=
  match List.lookup k d with
  | some v => v
  | none => default

/-- Modelled from the spec: the static surah-name to total-ayah-count
reference table NAME_TO_AYAH lives in data/reference/surah_meta.py, which
is not under src/.  Section 9 of the spec describes it as a fixed
read-only lookup dataset; the entries below are the well-known ayah
totals of surahs named in the repository UI (Al-Kahf, Al-Ikhlas,
Al-Falaq, An-Nas) plus Al-Fatihah. -/
def NAME_TO_AYAH : List (String × Int) :=
  [("Al-Fatihah", 7), ("Al-Kahf", 110), ("Al-Ikhlas", 4),
   ("Al-Falaq", 5), ("An-Nas", 6)]

/-! Embedding of utils/scoring.py. -/

/-- Helper scaler minmax from utils/scoring.py: clamp the affine rescaling
of value into the unit interval and scale to 0..100; degenerate windows
return 0. -/
def minmax (value min_v max_v : ℚ) : ℚ :=
  if max_v ≤ min_v then 0
  else (max 0 (min 1 ((value - min_v) / (max_v - min_v)))) * 100

/-- Helper scaler inverse_minmax from utils/scoring.py: high value gives a
low score. -/
def inverse_minmax (value min_v max_v : ℚ) : ℚ :=
  100 - minmax value min_v max_v

/-- Embedding of score_prayer: the prayers dict maps prayer names to ints;
an empty dict returns 0, otherwise the mean of the values times 100. -/
def score_prayer (prayers : List (String × Int)) : ℚ :=
  if prayers.isEmpty then 0
  else
    let total : Int := prayers.length
    let done : Int := (prayers.map (fun kv => kv.2)).sum
    ((done : ℚ) / (total : ℚ)) * 100

/-- Quran recitation item: surah name (r.get can yield None, hence Option)
and explicit ayah count. -/
structure QuranRec where
  surah : Option String
  ayahs : Int
  deriving DecidableEq, Repr

/-- Effective ayah count of one recitation item in score_quran: the
explicit count when non-zero, otherwise the NAME_TO_AYAH lookup of the
surah name (unknown names and a missing name resolve to 0). -/
def effAyahs (r : QuranRec) : Int :=
  if r.ayahs = 0 then
    match r.surah with
    | some s => dictGet NAME_TO_AYAH s 0
    | none => 0
  else r.ayahs

/-- Embedding of score_quran from utils/scoring.py: empty recitation list
returns 0 before any division; otherwise points are summed per item and
divided by max_daily_points (ZeroDivisionError when that is 0). -/
def score_quran (recitations : List QuranRec) (base_points_per_ayah : ℚ)
    (max_daily_points : Int) : Except String ℚ :=
  if recitations.isEmpty then .ok 0
  else
    let pts : ℚ := (recitations.map (fun r => (effAyahs r : ℚ) * base_points_per_ayah)).sum
    if max_daily_points = 0 then .error "ZeroDivisionError"
    else .ok (min 100 ((pts / (max_daily_points : ℚ)) * 100))

/-- Embedding of score_dhikr from utils/scoring.py. -/
def score_dhikr (total_reps : Int) (points_per_repetition : ℚ)
    (max_daily_points : Int) : Except String ℚ :=
  let pts : ℚ := (total_reps : ℚ) * points_per_repetition
  if max_daily_points = 0 then .error "ZeroDivisionError"
  else .ok (min 100 ((pts / (max_daily_points : ℚ)) * 100))

/-- Pure value of score_sadaqah from utils/scoring.py, on the branch where
no math error is raised.  math.log(x, b) is log x / log b over the
reals. -/
noncomputable def sadaqahVal (amount : ℝ) (log_scale : Bool) (log_base : ℝ) : ℝ :=
  let amt := max 0 amount
  if amt ≤ 0 then 0
  else
    let val := if log_scale then Real.log (amt + 1) / Real.log log_base else amt
    let denom := if log_scale then Real.log (1000 + 1) / Real.log log_base else 1000
    min 100 (val / denom * 100)

/-- Embedding of score_sadaqah from utils/scoring.py.  The amount is first
clamped to be non-negative (amount or 0.0, then max(0.0, ...)); a
non-positive amount scores 0 before any logarithm is taken.  With
log-scaling, math.log raises for a non-positive base (ValueError) or for
base 1 (ZeroDivisionError); both are modelled as an error.  The
max_daily_points parameter is accepted but never read by the body. -/
noncomputable def score_sadaqah (amount : ℝ) (log_scale : Bool) (log_base : ℝ)
    (max_daily_points : Int) : Except String ℝ :=
  let amt := max 0 amount
  if amt ≤ 0 then .ok 0
  else if log_scale ∧ (log_base ≤ 0 ∨ log_base = 1) then
    .error "math error: bad logarithm base"
  else .ok (sadaqahVal amount log_scale log_base)

/-- Time-of-day parse modelling _to_time (strptime with format HH:MM):
two colon-separated fields of one or two digits, hour below 24 and minute
below 60; anything else fails (the caller catches the exception). -/
def toTimeHM (s : String) : Option (Nat × Nat) :=
  match s.splitOn ":" with
  | [h, m] =>
    if h.length ≥ 1 ∧ h.length ≤ 2 ∧ h.all Char.isDigit ∧
       m.length ≥ 1 ∧ m.length ≤ 2 ∧ m.all Char.isDigit then
      let hv := h.toNat!
      let mv := m.toNat!
      if hv < 24 ∧ mv < 60 then some (hv, mv) else none
    else none
  | _ => none

/-- Lexicographic comparison of times of day, as datetime.time ordering. -/
def timeLe (a b : Nat × Nat) : Bool :=
  a.1 < b.1 || (a.1 = b.1 && a.2 ≤ b.2)

/-- Triangular core of score_sleep: the ramp below the ideal window, the
inverse ramp above it, the flat 100 inside it; a missing hours value
leaves the core at its initial 0. -/
def sleepCore (hours : Option ℚ) (ideal_min ideal_max : ℚ) : ℚ :=
  match hours with
  | none => 0
  | some h =>
    if h < ideal_min then minmax h (ideal_min - 3) ideal_min
    else if h > ideal_max then inverse_minmax h ideal_max (ideal_max + 3)
    else 100

/-- Bedtime bonus of score_sleep: 10 when a non-empty bedtime parses and
is at or before the configured threshold; parse failures are swallowed
by the try/except and leave the bonus at 0. -/
def sleepBonus (bedtime : Option String) (bedtime_bonus_before : String) : ℚ :=
  match bedtime with
  | none => 0
  | some bt =>
    if bt = "" then 0
    else
      match toTimeHM bt, toTimeHM bedtime_bonus_before with
      | some t1, some t2 => if timeLe t1 t2 then 10 else 0
      | _, _ => 0

/-- Embedding of score_sleep from utils/scoring.py: triangular core plus
bedtime bonus, floored at 0 and capped at 100.  The max_daily_points
parameter is unused by the body. -/
def score_sleep (hours : Option ℚ) (bedtime : Option String)
    (ideal_min ideal_max : ℚ) (bedtime_bonus_before : String)
    (max_daily_points : Int) : ℚ :=
  min 100 (max 0 (sleepCore hours ideal_min ideal_max) +
    sleepBonus bedtime bedtime_bonus_before)

/-- Screen-time configuration dict as used by score_screen_time: the three
keys it indexes directly, each possibly absent (an absent key raises
KeyError). -/
structure ScreenCfg where
  productive_apps : Option (List String)
  distracting_apps : Option (List String)
  max_daily_minutes : Option ℚ
  deriving DecidableEq, Repr

/-- Embedding of score_screen_time from utils/scoring.py.  An empty
app-minutes dict returns the neutral 50 before the config is touched;
otherwise the three config keys are read in source order (KeyError when
missing), productive and distracting minutes are summed by membership,
and the 0.6/0.4 blend of productive share and distraction penalty is
clamped to the unit interval and scaled to 0..100. -/
def score_screen_time (app_minutes : List (String × ℚ)) (cfg : ScreenCfg) :
    Except String ℚ :=
  if app_minutes.isEmpty then .ok 50
  else
    match cfg.productive_apps with
    | none => .error "KeyError: productive_apps"
    | some pa =>
      let prod : ℚ := ((app_minutes.filter (fun am => pa.contains am.1)).map
        (fun am => am.2)).sum
      match cfg.distracting_apps with
      | none => .error "KeyError: distracting_apps"
      | some da =>
        let dist : ℚ := ((app_minutes.filter (fun am => da.contains am.1)).map
          (fun am => am.2)).sum
        match cfg.max_daily_minutes with
        | none => .error "KeyError: max_daily_minutes"
        | some mdm =>
          let total : ℚ := max (prod + dist) 1
          let share : ℚ := prod / total
          let dist_penalty : ℚ := 1 - min 1 (dist / max 1 mdm)
          let combined : ℚ := (3 / 5) * share + (2 / 5) * dist_penalty
          .ok ((max 0 (min 1 combined)) * 100)

/-- Embedding of score_other from utils/scoring.py: the good/bad raw value
mapped from the band -100..100 onto 0..100 and clamped. -/
def score_other (good_count bad_count good_points bad_points : Int) : ℚ :=
  let pos := good_count * good_points
  let neg := bad_count * bad_points
  let raw := pos - neg
  max 0 (min 100 (((raw : ℚ) + 100) / 200 * 100))

/-- Embedding of weighted_baraka_score from utils/scoring.py: weights are
normalized by their sum, except that a zero sum falls back to 1 (the
Python expression sum(...) or 1.0); missing component keys contribute
0. -/
def weighted_baraka_score (components weights : List (String × ℚ)) : ℚ :=
  let s : ℚ := (weights.map (fun kw => kw.2)).sum
  let sw : ℚ := if s = 0 then 1 else s
  (weights.map (fun kw => dictGet components kw.1 0 * (kw.2 / sw))).sum

/-- Pointwise scaling of a weight mapping by a constant. -/
def scaleWeights (k : ℚ) (weights : List (String × ℚ)) : List (String × ℚ) :=
  weights.map (fun kv => (kv.1, k * kv.2))

/-! Embedding of scripts/process_barakah.py (the Feature Builder). -/

/-- One raw daily log entry, after the fill-and-cast normalization that
build_features applies column by column (prayer flags cast to ints,
missing numerics filled with 0, missing bedtime filled with the empty
string, missing collections filled with empty ones, outcome columns kept
optional). -/
structure RawLogEntry where
  date : String
  Fajr : Int
  Dhuhr : Int
  Asr : Int
  Maghrib : Int
  Isha : Int
  quran_recs : List QuranRec
  dhikr_reps : Int
  sadaqah_amount : ℚ
  sleep_hours : ℚ
  bedtime : String
  app_minutes : List (String × ℚ)
  other_good : Int
  other_bad : Int
  clarity : Option Int
  focus : Option Int
  calm : Option Int
  productivity : Option Int
  deriving DecidableEq, Repr

/-- Screen-time section of the config as consumed by build_features, with
the .get defaults (missing section or missing list means the empty
list) already applied. -/
structure ProcCfg where
  productive_apps : List String
  distracting_apps : List String
  deriving DecidableEq, Repr

/-- One row of the daily feature table produced by build_features. -/
structure FeatureRow where
  date : String
  prayer_on_time : ℚ
  quran_items : Int
  dhikr_reps : Int
  sadaqah_amount : ℚ
  sleep_hours : ℚ
  bedtime : String
  other_good : Int
  other_bad : Int
  prod_minutes : ℚ
  dist_minutes : ℚ
  clarity : Option Int
  focus : Option Int
  calm : Option Int
  productivity : Option Int
  deriving DecidableEq, Repr

/-- Per-entry feature extraction of build_features.  The date column is
normalized by pandas to_datetime and back to an ISO string; entries are
modelled as carrying the already-canonical string, so the normalization
is the identity here.  The quran_items column sums only the explicit
ayahs fields of the recitation items (the lambda at lines 72-74 of
process_barakah.py performs no reference-table lookup); split_minutes
accumulates minutes into each config bucket the app name belongs to. -/
def toFeatureRow (cfg : ProcCfg) (e : RawLogEntry) : FeatureRow where
  date := e.date
  prayer_on_time := ((e.Fajr + e.Dhuhr + e.Asr + e.Maghrib + e.Isha : Int) : ℚ) / 5
  quran_items := (e.quran_recs.map (fun r => r.ayahs)).sum
  dhikr_reps := e.dhikr_reps
  sadaqah_amount := e.sadaqah_amount
  sleep_hours := e.sleep_hours
  bedtime := e.bedtime
  other_good := e.other_good
  other_bad := e.other_bad
  prod_minutes := ((e.app_minutes.filter
    (fun am => cfg.productive_apps.contains am.1)).map (fun am => am.2)).sum
  dist_minutes := ((e.app_minutes.filter
    (fun am => cfg.distracting_apps.contains am.1)).map (fun am => am.2)).sum
  clarity := e.clarity
  focus := e.focus
  calm := e.calm
  productivity := e.productivity

/-- Stable insertion of a feature row into a date-sorted list: rows with
a strictly smaller date stay in front, so among equal dates the inserted
row goes first and list order among equals is preserved. -/
def insertByDate (r : FeatureRow) : List FeatureRow → List FeatureRow
  | [] => [r]
  | x :: xs => if x.date < r.date then x :: insertByDate r xs else r :: x :: xs

/-- Model of feat.sort_values on the date column.  The source uses the
pandas default kind quicksort, which pandas documents as not stable:
the relative order of rows with equal dates after the sort is an
implementation detail of numpy, not part of the documented semantics.
This model fixes one admissible tie order, the stable one, so
properties that depend on the order of equal-date rows (exactly what
the keep-last deduplication below reads) are established here only
relative to that choice and are not guaranteed by the program. -/
def sortByDate : List FeatureRow → List FeatureRow
  | [] => []
  | r :: l => insertByDate r (sortByDate l)

/-- Model of drop_duplicates on the date column with keep equal to last:
a row survives exactly when no later row has the same date, and the
surviving rows keep their relative order. -/
def dropDupKeepLast (l : List FeatureRow) : List FeatureRow :=
  l.foldr (fun r acc => if acc.any (fun x => x.date == r.date) then acc
    else r :: acc) []

/-- Last row carrying a given date, scanning from the right; none when no
row has the date.  This is the specification device used to state what
drop_duplicates keep-last retains. -/
def lastWithDate (d : String) : List FeatureRow → Option FeatureRow
  | [] => none
  | r :: l =>
    match lastWithDate d l with
    | some x => some x
    | none => if r.date = d then some r else none

/-- Embedding of build_features from scripts/process_barakah.py: per-entry
extraction, sort by date, then deduplicate keeping the last row per
date. -/
def build_features (cfg : ProcCfg) (logs : List RawLogEntry) : List FeatureRow :=
  if logs.isEmpty then []
  else dropDupKeepLast (sortByDate (logs.map (toFeatureRow cfg)))

/-! Embedding of scripts/calculate_barakah.py, calculate_score_components. -/

/-- Quran component from calculate_barakah.py lines 81-83: the feature
table quran_items divided by the config max (ZeroDivisionError when that
is 0), capped at 100.  It does not call score_quran and no reference
table is consulted. -/
def quran_component (quran_items : Int) (quran_max : Int) : Except String ℚ :=
  if quran_max = 0 then .error "ZeroDivisionError"
  else .ok (min 100 (((quran_items : ℚ) / (quran_max : ℚ)) * 100))

/-- Screen-time component from calculate_barakah.py lines 114-124: the
row minutes are repackaged into a two-key dict under the synthetic names
productive and distracting, with a matching synthetic config. -/
def screen_time_component (prod_minutes dist_minutes : ℚ)
    (max_daily_minutes : ℚ) : Except String ℚ :=
  score_screen_time
    [("productive", prod_minutes), ("distracting", dist_minutes)]
    ⟨some ["productive"], some ["distracting"], some max_daily_minutes⟩

/-- Other-good component from calculate_barakah.py lines 130-134:
score_other applied with the bad count replaced by zero. -/
def other_good_component (other_good good_points bad_points : Int) : ℚ :=
  score_other other_good 0 good_points bad_points

/-- Other-bad component from calculate_barakah.py lines 135-139:
score_other applied with the good count replaced by zero. -/
def other_bad_component (other_bad good_points bad_points : Int) : ℚ :=
  score_other 0 other_bad good_points bad_points

/-- Formula stated by the spec for both other-habit components: a single
raw value combining both counts, shifted and clamped.  This definition
follows the words of the claim and is compared against the code. -/
def spec_other_formula (good_count bad_count good_points bad_points : Int) : ℚ :=
  max 0 (min 100
    ((((good_count * good_points - bad_count * bad_points : Int) : ℚ) + 100) / 200 * 100))

/-! Embedding of scripts/barakah_model.py, train_and_analyze. -/

/-- Numeric columns of the persisted daily_features.csv as read back by
pandas: every column except the date and bedtime strings.  These are the
columns the correlation matrix at line 28 of barakah_model.py is indexed
by; the avg_outcome column is only added to the frame afterwards. -/
def featureNumericCols : List String :=
  ["prayer_on_time", "quran_items", "dhikr_reps", "sadaqah_amount",
   "sleep_hours", "other_good", "other_bad", "prod_minutes", "dist_minutes",
   "clarity", "focus", "calm", "productivity"]

/-- Numeric value of a feature-table column on one row; the optional
outcome columns yield none where the CSV holds NaN. -/
def colVal (r : FeatureRow) (c : String) : Option ℝ :=
  if c = "prayer_on_time" then some (r.prayer_on_time : ℝ)
  else if c = "quran_items" then some (r.quran_items : ℝ)
  else if c = "dhikr_reps" then some (r.dhikr_reps : ℝ)
  else if c = "sadaqah_amount" then some (r.sadaqah_amount : ℝ)
  else if c = "sleep_hours" then some (r.sleep_hours : ℝ)
  else if c = "other_good" then some (r.other_good : ℝ)
  else if c = "other_bad" then some (r.other_bad : ℝ)
  else if c = "prod_minutes" then some (r.prod_minutes : ℝ)
  else if c = "dist_minutes" then some (r.dist_minutes : ℝ)
  else if c = "clarity" then r.clarity.map (fun v => (v : ℝ))
  else if c = "focus" then r.focus.map (fun v => (v : ℝ))
  else if c = "calm" then r.calm.map (fun v => (v : ℝ))
  else if c = "productivity" then r.productivity.map (fun v => (v : ℝ))
  else none

/-- Pearson correlation of two feature columns over the rows where both
are present, as DataFrame.corr computes it pairwise.  Degenerate columns
make the denominator zero; the real-division convention x / 0 = 0 models
the subsequent fillna(0) on the matrix. -/
noncomputable def pearson (df : List FeatureRow) (c1 c2 : String) : ℝ :=
  let pairs : List (ℝ × ℝ) := df.filterMap (fun r =>
    match colVal r c1, colVal r c2 with
    | some x, some y => some (x, y)
    | _, _ => none)
  let n : ℝ := pairs.length
  let mx : ℝ := (pairs.map (fun p => p.1)).sum / n
  let my : ℝ := (pairs.map (fun p => p.2)).sum / n
  let cov : ℝ := (pairs.map (fun p => (p.1 - mx) * (p.2 - my))).sum
  let vx : ℝ := (pairs.map (fun p => (p.1 - mx) * (p.1 - mx))).sum
  let vy : ℝ := (pairs.map (fun p => (p.2 - my) * (p.2 - my))).sum
  cov / (Real.sqrt vx * Real.sqrt vy)

/-- Model of df.corr(numeric_only=True).fillna(0) at line 28 of
barakah_model.py: a square association matrix over the numeric columns
of the feature table as loaded, which does not include avg_outcome. -/
noncomputable def pdCorr (df : List FeatureRow) :
    List (String × List (String × ℝ)) :=
  featureNumericCols.map (fun c1 =>
    (c1, featureNumericCols.map (fun c2 => (c2, pearson df c1 c2))))

/-- Row predicate for dropna(subset=avg_outcome): the skipna row mean of
the four outcome columns is NaN exactly when all four are missing. -/
def hasOutcome (r : FeatureRow) : Bool :=
  r.clarity.isSome || r.focus.isSome || r.calm.isSome || r.productivity.isSome

/-- Structured result document of train_and_analyze; fields that a given
status does not produce are none. -/
structure ModelReport where
  status : String
  correlations : Option (List (String × ℝ))
  cv_r2_mean : Option ℝ
  cv_r2_std : Option ℝ
  n_samples : Option Nat

/-- Embedding of train_and_analyze from scripts/barakah_model.py.  The
input is the persisted feature table, or none when the CSV file does not
exist.  The correlation matrix is computed before the avg_outcome column
is created, so the column lookup corr at avg_outcome is a KeyError on
every path that reaches it.  In the unreachable at-least-ten branch the
sklearn fit itself is not modelled: the cross-validation metrics are
placeholders behind the same failing lookup. -/
noncomputable def train_and_analyze (table : Option (List FeatureRow)) :
    Except String ModelReport :=
  match table with
  | none => .ok ⟨"no_data", none, none, none, none⟩
  | some df =>
    let corr := pdCorr df
    let dfo := df.filter hasOutcome
    if dfo.length < 10 then
      match List.lookup "avg_outcome" corr with
      | none => .error "KeyError: avg_outcome"
      | some col => .ok ⟨"insufficient_data", some col, none, none, none⟩
    else
      match List.lookup "avg_outcome" corr with
      | none => .error "KeyError: avg_outcome"
      | some col => .ok ⟨"ok", some col, some 0, some 0, some dfo.length⟩

/-! Concrete example inputs used by the closed theorems below. -/

/-- Example processing config with one productive and one distracting
app. -/
def exCfg : ProcCfg := ⟨["Quran App"], ["Twitter"]⟩

/-- Example raw entry whose app-minutes mapping is empty (no screen-time
data for the day). -/
def exEntryNoApps : RawLogEntry :=
  ⟨"2024-01-01", 1, 1, 0, 1, 1, [], 100, 5, 7, "22:30", [], 1, 0,
   some 4, some 3, some 4, some 3⟩

/-- Example raw entry reciting a named surah with explicit ayah count 0,
the whole-surah convention of the data model. -/
def exEntryFatihah : RawLogEntry :=
  ⟨"2024-01-02", 1, 1, 1, 1, 1, [⟨some "Al-Fatihah", 0⟩], 0, 0, 8, "", [],
   0, 0, none, none, none, none⟩

/-- Example processed feature table with three rows, each carrying an
outcome rating, so fewer than ten outcome-bearing rows exist. -/
def exFeatureTable : List FeatureRow :=
  [⟨"2024-01-01", 1, 0, 0, 0, 7, "", 0, 0, 0, 0, some 3, none, none, none⟩,
   ⟨"2024-01-02", 1, 0, 0, 0, 8, "", 0, 0, 0, 0, some 4, none, none, none⟩,
   ⟨"2024-01-03", 0, 0, 0, 0, 6, "", 0, 0, 0, 0, some 2, none, none, none⟩]

/-! Helper lemmas. -/

/-- Unfolding equation for dropDupKeepLast on the empty list. -/
lemma dropDupKeepLast_nil : dropDupKeepLast [] = [] := rfl

/-- Unfolding equation for dropDupKeepLast on a cons: the head survives
exactly when no kept row of the tail shares its date. -/
lemma dropDupKeepLast_cons (r : FeatureRow) (l : List FeatureRow) :
    dropDupKeepLast (r :: l) =
      if (dropDupKeepLast l).any (fun x => x.date == r.date) then dropDupKeepLast l
      else r :: dropDupKeepLast l := rfl

/-- Rows kept by the deduplication all come from the input. -/
lemma mem_dropDupKeepLast {x : FeatureRow} {l : List FeatureRow}
    (h : x ∈ dropDupKeepLast l) : x ∈ l := by
  induction l with
  | nil => simpa [dropDupKeepLast_nil] using h
  | cons r t ih =>
    rw [dropDupKeepLast_cons] at h
    split at h
    · exact List.mem_cons_of_mem r (ih h)
    · rcases List.mem_cons.mp h with h1 | h2
      · exact h1 ▸ List.mem_cons_self _ _
      · exact List.mem_cons_of_mem r (ih h2)

/-- The last-row-with-date scan misses exactly when no row has the
date. -/
lemma lastWithDate_eq_none_iff {d : String} {l : List FeatureRow} :
    lastWithDate d l = none ↔ ∀ r ∈ l, r.date ≠ d := by
  induction l with
  | nil => simp [lastWithDate]
  | cons r t ih =>
    constructor
    · intro h
      unfold lastWithDate at h
      intro x hx
      rcases List.mem_cons.mp hx with h1 | h2
      · subst h1
        cases ht : lastWithDate d t with
        | some y => rw [ht] at h; exact absurd h (by simp)
        | none =>
          rw [ht] at h
          intro hd
          rw [if_pos hd] at h
          exact absurd h (by simp)
      · cases ht : lastWithDate d t with
        | some y => rw [ht] at h; exact absurd h (by simp)
        | none => exact (ih.mp ht) x h2
    · intro h
      unfold lastWithDate
      rw [ih.mpr (fun x hx => h x (List.mem_cons_of_mem r hx))]
      rw [if_neg (h r (List.mem_cons_self _ _))]

/-- Deduplication keeps at least one row per represented date. -/
lemma date_mem_dropDupKeepLast {d : String} {l : List FeatureRow}
    (h : ∃ y ∈ l, y.date = d) : ∃ y ∈ dropDupKeepLast l, y.date = d := by
  induction l with
  | nil => simp at h
  | cons r t ih =>
    rw [dropDupKeepLast_cons]
    obtain ⟨y, hy, hyd⟩ := h
    rcases List.mem_cons.mp hy with h1 | h2
    · subst h1
      split
      · rename_i hany
        obtain ⟨z, hz, hzd⟩ := List.any_eq_true.mp hany
        exact ⟨z, hz, by simpa [hyd] using of_decide_eq_true hzd⟩
      · exact ⟨y, List.mem_cons_self _ _, hyd⟩
    · obtain ⟨z, hz, hzd⟩ := ih ⟨y, h2, hyd⟩
      split
      · exact ⟨z, hz, hzd⟩
      · exact ⟨z, List.mem_cons_of_mem r hz, hzd⟩

/-- Unfolding equation for lastWithDate on a cons. -/
lemma lastWithDate_cons (d : String) (r : FeatureRow) (l : List FeatureRow) :
    lastWithDate d (r :: l) =
      match lastWithDate d l with
      | some x => some x
      | none => if r.date = d then some r else none := rfl

/-- Central deduplication lemma: filtering the deduplicated list down to
one date yields exactly the last row of the input with that date. -/
lemma filter_dropDupKeepLast (l : List FeatureRow) (d : String) :
    (dropDupKeepLast l).filter (fun x => x.date == d) = (lastWithDate d l).toList := by
  induction l generalizing d with
  | nil => simp [dropDupKeepLast_nil, lastWithDate]
  | cons r t ih =>
    rw [dropDupKeepLast_cons]
    by_cases hany : (dropDupKeepLast t).any (fun x => x.date == r.date)
    · rw [if_pos hany, ih, lastWithDate_cons]
      cases ht : lastWithDate d t with
      | some x => rfl
      | none =>
        have hrd : r.date ≠ d := by
          intro hrd
          obtain ⟨z, hz, hzd⟩ := List.any_eq_true.mp hany
          have hz2 : z.date = r.date := by simpa using hzd
          have hnone : ∀ y ∈ t, y.date ≠ d := lastWithDate_eq_none_iff.mp ht
          exact hnone z (mem_dropDupKeepLast hz) (hz2.trans hrd)
        rw [if_neg hrd]
    · rw [if_neg hany, List.filter_cons]
      by_cases hrd : r.date = d
      · have ht : lastWithDate d t = none := by
          rw [lastWithDate_eq_none_iff]
          intro y hy hyd
          apply hany
          obtain ⟨z, hz, hzd⟩ := date_mem_dropDupKeepLast ⟨y, hy, hyd⟩
          exact List.any_eq_true.mpr ⟨z, hz, by simp [hzd, hrd]⟩
        have hfil : (dropDupKeepLast t).filter (fun x => x.date == d) = [] := by
          rw [ih, ht]; rfl
        rw [lastWithDate_cons, ht]
        simp [hrd, hfil]
      · rw [lastWithDate_cons]
        cases ht : lastWithDate d t with
        | some x =>
          simp only [beq_iff_eq, hrd, if_false]
          rw [ih d, ht]
        | none =>
          simp only [beq_iff_eq, hrd, if_false]
          rw [ih d, ht]

/-- Stable insertion preserves the last row with a date; inserting a row
of the date makes it the new answer only when the date was absent,
because the insertion point is before the existing equal-date block. -/
lemma lastWithDate_insertByDate (d : String) (r : FeatureRow) (l : List FeatureRow) :
    lastWithDate d (insertByDate r l) =
      if r.date = d then
        match lastWithDate d l with
        | some x => some x
        | none => some r
      else lastWithDate d l := by
  induction l with
  | nil =>
    by_cases hrd : r.date = d <;> simp [insertByDate, lastWithDate, hrd]
  | cons x xs ih =>
    unfold insertByDate
    by_cases hlt : x.date < r.date
    · rw [if_pos hlt, lastWithDate_cons, ih]
      by_cases hrd : r.date = d
      · rw [if_pos hrd, if_pos hrd, lastWithDate_cons]
        have hxd : x.date ≠ d := ne_of_lt (hrd ▸ hlt)
        cases hxs : lastWithDate d xs with
        | some y => rfl
        | none => rw [if_neg hxd]
      · rw [if_neg hrd, if_neg hrd, lastWithDate_cons]
    · rw [if_neg hlt, lastWithDate_cons]
      cases h2 : lastWithDate d (x :: xs) with
      | some y => by_cases hrd : r.date = d <;> simp [hrd]
      | none => by_cases hrd : r.date = d <;> simp [hrd]

/-- Under the stable tie order fixed by the sortByDate model, sorting does
not change which row is the last with a given date.  This is precisely
the point where the program gives no guarantee: pandas documents the
default quicksort as not stable, so for the real pipeline the identity
of the surviving row per date is an unspecified tie-breaking choice,
and last-submission-wins deduplication holds only relative to this
model. -/
lemma lastWithDate_sortByDate (d : String) (l : List FeatureRow) :
    lastWithDate d (sortByDate l) = lastWithDate d l := by
  induction l with
  | nil => rfl
  | cons r t ih =>
    unfold sortByDate
    rw [lastWithDate_insertByDate, ih, lastWithDate_cons]
    by_cases hrd : r.date = d
    · rw [if_pos hrd]
      cases lastWithDate d t with
      | some x => rfl
      | none => rw [if_pos hrd]
    · rw [if_neg hrd]
      cases lastWithDate d t with
      | some x => rfl
      | none => rw [if_neg hrd]

/-- Appending scans the right part first when looking for the last row
with a date. -/
lemma lastWithDate_append (d : String) (a b : List FeatureRow) :
    lastWithDate d (a ++ b) =
      match lastWithDate d b with
      | some x => some x
      | none => lastWithDate d a := by
  induction a with
  | nil =>
    simp only [List.nil_append]
    cases lastWithDate d b with
    | some x => rfl
    | none => rfl
  | cons r t ih =>
    rw [List.cons_append, lastWithDate_cons, ih, lastWithDate_cons]
    cases lastWithDate d b with
    | some x => rfl
    | none => rfl

/-- Extracted rows inherit the entry date, so a date absent from the
entries is absent from their feature rows. -/
lemma lastWithDate_map_eq_none (cfg : ProcCfg) (d : String) (l : List RawLogEntry)
    (h : ∀ x ∈ l, x.date ≠ d) :
    lastWithDate d (l.map (toFeatureRow cfg)) = none := by
  rw [lastWithDate_eq_none_iff]
  intro r hr
  obtain ⟨x, hx, hx2⟩ := List.mem_map.mp hr
  rw [← hx2]
  exact h x hx

/-- Association-list lookup misses when the key differs from every mapped
key. -/
lemma lookup_map_pair_eq_none {β : Type} (k : String) (cols : List String)
    (f : String → β) (h : ∀ c ∈ cols, k ≠ c) :
    List.lookup k (cols.map (fun c => (c, f c))) = none := by
  induction cols with
  | nil => rfl
  | cons c cs ih =>
    simp only [List.map_cons, List.lookup]
    have hne : (k == c) = false := beq_eq_false_iff_ne.mpr (h c (List.mem_cons_self _ _))
    rw [hne]
    exact ih (fun c2 hc2 => h c2 (List.mem_cons_of_mem _ hc2))

/-- Integer dict lookup with non-negative entries and default stays
non-negative. -/
lemma dictGet_int_nonneg (l : List (String × Int)) (k : String) (d : Int)
    (h : ∀ kv ∈ l, 0 ≤ kv.2) (hd : 0 ≤ d) : 0 ≤ dictGet l k d := by
  induction l with
  | nil => simpa [dictGet, List.lookup]
  | cons x xs ih =>
    obtain ⟨k1, v⟩ := x
    by_cases hk : k == k1
    · simpa [dictGet, List.lookup, hk] using h (k1, v) (List.mem_cons_self _ _)
    · simp only [dictGet, List.lookup, hk] at ih ⊢
      exact ih (fun kv hkv => h kv (List.mem_cons_of_mem _ hkv))

/-- Effective ayah counts are non-negative for non-negative explicit
counts, because the reference table holds non-negative totals. -/
lemma effAyahs_nonneg (r : QuranRec) (h : 0 ≤ r.ayahs) : 0 ≤ effAyahs r := by
  unfold effAyahs
  split
  · cases hr : r.surah with
    | none => simp
    | some s =>
      simp only
      apply dictGet_int_nonneg
      · intro kv hkv
        simp [NAME_TO_AYAH] at hkv
        rcases hkv with h1 | h1 | h1 | h1 | h1 <;> simp [h1]
      · exact le_refl 0
  · exact h

/-- Prayer score bounds, available only when every flag is 0 or 1. -/
lemma score_prayer_bounds (prayers : List (String × Int))
    (h : ∀ kv ∈ prayers, kv.2 = 0 ∨ kv.2 = 1) :
    0 ≤ score_prayer prayers ∧ score_prayer prayers ≤ 100 := by
  unfold score_prayer
  split
  · norm_num
  · rename_i hne
    dsimp only
    have hsum0 : 0 ≤ (prayers.map (fun kv => kv.2)).sum := by
      apply List.sum_nonneg
      intro q hq
      obtain ⟨kv, hkv, hq2⟩ := List.mem_map.mp hq
      rcases h kv hkv with h1 | h1 <;> simp [← hq2, h1]
    have hsumle : (prayers.map (fun kv => kv.2)).sum ≤ (prayers.length : Int) := by
      clear hne hsum0
      induction prayers with
      | nil => simp
      | cons x xs ih =>
        simp only [List.map_cons, List.sum_cons, List.length_cons]
        have hx : x.2 ≤ 1 := by rcases h x (List.mem_cons_self _ _) with h1 | h1 <;> simp [h1]
        have := ih (fun kv hkv => h kv (List.mem_cons_of_mem _ hkv))
        push_cast
        omega
    have hlen : (0 : ℚ) < ((prayers.length : Int) : ℚ) := by
      have h1 : prayers ≠ [] := by simpa [List.isEmpty_iff] using hne
      have h2 : 0 < prayers.length := List.length_pos.mpr h1
      exact_mod_cast h2
    have hdle : (((prayers.map (fun kv => kv.2)).sum : Int) : ℚ) ≤ ((prayers.length : Int) : ℚ) := by
      exact_mod_cast hsumle
    have hd0 : (0 : ℚ) ≤ (((prayers.map (fun kv => kv.2)).sum : Int) : ℚ) := by
      exact_mod_cast hsum0
    have hrat : (((prayers.map (fun kv => kv.2)).sum : Int) : ℚ) / ((prayers.length : Int) : ℚ) ≤ 1 :=
      (div_le_one hlen).mpr hdle
    have hrat0 : (0 : ℚ) ≤ (((prayers.map (fun kv => kv.2)).sum : Int) : ℚ) / ((prayers.length : Int) : ℚ) :=
      div_nonneg hd0 (le_of_lt hlen)
    constructor
    · nlinarith
    · nlinarith

/-- Recitation score bounds for non-negative inputs, a non-negative rate
and a positive daily maximum. -/
lemma score_quran_bounds (recs : List QuranRec) (bp : ℚ) (m : Int)
    (hr : ∀ r ∈ recs, 0 ≤ r.ayahs) (hbp : 0 ≤ bp) (hm : 0 < m) :
    ∃ s, score_quran recs bp m = .ok s ∧ 0 ≤ s ∧ s ≤ 100 := by
  unfold score_quran
  split
  · exact ⟨0, rfl, le_refl 0, by norm_num⟩
  · rw [if_neg (by omega)]
    refine ⟨_, rfl, ?_, min_le_left _ _⟩
    apply le_min (by norm_num)
    have hpts : 0 ≤ (recs.map (fun r => (effAyahs r : ℚ) * bp)).sum := by
      apply List.sum_nonneg
      intro q hq
      obtain ⟨r, hr2, hq2⟩ := List.mem_map.mp hq
      rw [← hq2]
      apply mul_nonneg _ hbp
      exact_mod_cast effAyahs_nonneg r (hr r hr2)
    have hmq : (0 : ℚ) ≤ (m : ℚ) := by exact_mod_cast le_of_lt hm
    positivity

/-- Remembrance score bounds for non-negative inputs and a positive daily
maximum. -/
lemma score_dhikr_bounds (reps : Int) (ppr : ℚ) (m : Int)
    (h1 : 0 ≤ reps) (h2 : 0 ≤ ppr) (hm : 0 < m) :
    ∃ s, score_dhikr reps ppr m = .ok s ∧ 0 ≤ s ∧ s ≤ 100 := by
  unfold score_dhikr
  rw [if_neg (by omega)]
  refine ⟨_, rfl, ?_, min_le_left _ _⟩
  apply le_min (by norm_num)
  have hrq : (0 : ℚ) ≤ (reps : ℚ) := by exact_mod_cast h1
  have hmq : (0 : ℚ) ≤ (m : ℚ) := by exact_mod_cast le_of_lt hm
  positivity

/-- Charitable-giving score bounds under a valid logarithm base. -/
lemma sadaqahVal_bounds (a lb : ℝ) (ls : Bool) (h : ls = true → 0 < lb ∧ lb ≠ 1) :
    0 ≤ sadaqahVal a ls lb ∧ sadaqahVal a ls lb ≤ 100 := by
  cases ls with
  | false =>
    unfold sadaqahVal
    simp only [Bool.false_eq_true, if_false]
    split
    · norm_num
    · rename_i hpos
      have hamt : 0 < max 0 a := lt_of_not_le hpos
      exact ⟨le_min (by norm_num) (by positivity), min_le_left _ _⟩
  | true =>
    obtain ⟨hlb, hlb1⟩ := h rfl
    have hc : Real.log lb ≠ 0 := Real.log_ne_zero_of_pos_of_ne_one hlb hlb1
    unfold sadaqahVal
    simp only [if_true]
    split
    · norm_num
    · rename_i hpos
      have hamt : 0 < max 0 a := lt_of_not_le hpos
      rw [div_div_div_cancel_right₀ hc]
      have hln : 0 ≤ Real.log (max 0 a + 1) := Real.log_nonneg (by linarith)
      have hld : 0 < Real.log (1000 + 1) := Real.log_pos (by norm_num)
      exact ⟨le_min (by norm_num) (by positivity), min_le_left _ _⟩

/-- Charitable-giving score is monotone in the amount under a valid
logarithm base: the base cancels between numerator and the fixed
denominator, leaving a monotone function of the logarithm. -/
lemma sadaqahVal_mono (a b lb : ℝ) (ls : Bool) (hab : a ≤ b)
    (h : ls = true → 0 < lb ∧ lb ≠ 1) :
    sadaqahVal a ls lb ≤ sadaqahVal b ls lb := by
  have hmax : max 0 a ≤ max 0 b := max_le_max (le_refl 0) hab
  by_cases ha0 : max 0 a ≤ 0
  · have hz : sadaqahVal a ls lb = 0 := by
      unfold sadaqahVal
      rw [if_pos ha0]
    rw [hz]
    exact (sadaqahVal_bounds b lb ls h).1
  · have hb0 : ¬(max 0 b ≤ 0) := fun hb2 => ha0 (le_trans hmax hb2)
    have hapos : 0 < max 0 a := lt_of_not_le ha0
    have hbpos : 0 < max 0 b := lt_of_not_le hb0
    cases ls with
    | false =>
      unfold sadaqahVal
      rw [if_neg ha0, if_neg hb0]
      simp only [Bool.false_eq_true, if_false]
      apply min_le_min (le_refl 100)
      have hd : max 0 a / 1000 ≤ max 0 b / 1000 :=
        div_le_div_of_nonneg_right hmax (by norm_num)
      nlinarith
    | true =>
      obtain ⟨hlb, hlb1⟩ := h rfl
      have hc : Real.log lb ≠ 0 := Real.log_ne_zero_of_pos_of_ne_one hlb hlb1
      unfold sadaqahVal
      rw [if_neg ha0, if_neg hb0]
      simp only [if_true]
      rw [div_div_div_cancel_right₀ hc, div_div_div_cancel_right₀ hc]
      apply min_le_min (le_refl 100)
      have hld : 0 < Real.log (1000 + 1) := Real.log_pos (by norm_num)
      have hlog : Real.log (max 0 a + 1) ≤ Real.log (max 0 b + 1) :=
        Real.log_le_log (by linarith) (by linarith)
      have hd : Real.log (max 0 a + 1) / Real.log (1000 + 1) ≤
          Real.log (max 0 b + 1) / Real.log (1000 + 1) :=
        div_le_div_of_nonneg_right hlog (le_of_lt hld)
      nlinarith

/-- Sleep score bounds hold unconditionally. -/
lemma score_sleep_bounds (h : Option ℚ) (bt : Option String) (im ix : ℚ)
    (bb : String) (m : Int) :
    0 ≤ score_sleep h bt im ix bb m ∧ score_sleep h bt im ix bb m ≤ 100 := by
  have hb : 0 ≤ sleepBonus bt bb := by
    unfold sleepBonus
    rcases bt with _ | s
    · norm_num
    · dsimp only
      split
      · norm_num
      · split <;> try norm_num
        split <;> norm_num
  unfold score_sleep
  exact ⟨le_min (by norm_num) (add_nonneg (le_max_left _ _) hb), min_le_left _ _⟩

/-- Screen-time score bounds whenever the three config keys are present. -/
lemma score_screen_time_bounds (am : List (String × ℚ)) (pa da : List String) (mdm : ℚ) :
    ∃ s, score_screen_time am ⟨some pa, some da, some mdm⟩ = .ok s ∧ 0 ≤ s ∧ s ≤ 100 := by
  unfold score_screen_time
  split
  · exact ⟨50, rfl, by norm_num, by norm_num⟩
  · refine ⟨_, rfl, ?_, ?_⟩
    · positivity
    · set c := (3 / 5 : ℚ) * _ + (2 / 5) * _ with hc
      have h1 : max 0 (min 1 c) ≤ 1 := max_le (by norm_num) (min_le_left _ _)
      nlinarith [h1]

/-- Other-habit score bounds hold unconditionally thanks to the clamp. -/
lemma score_other_bounds (g b gp bp : Int) :
    0 ≤ score_other g b gp bp ∧ score_other g b gp bp ≤ 100 := by
  unfold score_other
  exact ⟨le_max_left _ _, max_le (by norm_num) (min_le_left _ _)⟩

/-- Weight values of a non-negative weight mapping with zero sum are all
zero. -/
lemma weights_all_zero_of_sum_zero (l : List (String × ℚ))
    (h : ∀ kv ∈ l, 0 ≤ kv.2) (hs : (l.map (fun kw => kw.2)).sum = 0) :
    ∀ kv ∈ l, kv.2 = 0 := by
  induction l with
  | nil => intro kv hkv; cases hkv
  | cons x xs ih =>
    simp only [List.map_cons, List.sum_cons] at hs
    have hx : 0 ≤ x.2 := h x (List.mem_cons_self x xs)
    have hxs : 0 ≤ (xs.map (fun kw => kw.2)).sum :=
      List.sum_nonneg (by
        intro q hq
        obtain ⟨kv, hkv, hq2⟩ := List.mem_map.mp hq
        exact hq2 ▸ h kv (List.mem_cons_of_mem x hkv))
    have hx0 : x.2 = 0 := by linarith
    have hxs0 : (xs.map (fun kw => kw.2)).sum = 0 := by linarith
    intro kv hkv
    rcases List.mem_cons.mp hkv with h1 | h2
    · exact h1 ▸ hx0
    · exact ih (fun kv2 hkv2 => h kv2 (List.mem_cons_of_mem x hkv2)) hxs0 kv h2

/-- Scaling every weight scales the weight sum. -/
lemma scaleWeights_sum (k : ℚ) (w : List (String × ℚ)) :
    ((scaleWeights k w).map (fun kw => kw.2)).sum = k * (w.map (fun kw => kw.2)).sum := by
  induction w with
  | nil => simp [scaleWeights]
  | cons x xs ih =>
    simp [scaleWeights, List.map_cons, List.sum_cons] at ih ⊢
    ring_nf
    rw [ih]
    ring

/-! Claim theorems. -/

/-- Claim C1, code bug: for a raw entry reciting a named surah with
explicit ayah count 0, the pipeline (build_features feeding
calculate_score_components) computes a recitation total of 0 and a
recitation component of 0, whereas the spec-mandated reference-table
fallback resolves that surah to its total ayah count 7, as the unused
score_quran function from utils/scoring.py indeed would. -/
theorem c1_quran_pipeline_drops_table_fallback :
    (toFeatureRow exCfg exEntryFatihah).quran_items = 0 ∧
    quran_component (toFeatureRow exCfg exEntryFatihah).quran_items 100 = .ok 0 ∧
    dictGet NAME_TO_AYAH "Al-Fatihah" 0 = 7 ∧
    score_quran [⟨some "Al-Fatihah", 0⟩] 1 100 = .ok 7 ∧
    (7 : Int) ≠ 0 := by
  refine ⟨rfl, ?_, rfl, ?_, by norm_num⟩
  · simp [exEntryFatihah, toFeatureRow, quran_component]
  · simp [score_quran, effAyahs, dictGet, List.lookup, NAME_TO_AYAH]
    norm_num

/-- Claim C2, code bug: for a day with an empty app-minutes mapping the
pipeline wraps the zero productive and distracting minutes in a
two-key dict, so score_screen_time never sees an empty mapping and
returns 40, not the neutral 50 that the raw scorer (and the spec)
produce for genuinely missing data. -/
theorem c2_screen_time_pipeline_neutral_is_40 :
    screen_time_component (toFeatureRow exCfg exEntryNoApps).prod_minutes
        (toFeatureRow exCfg exEntryNoApps).dist_minutes 120 = .ok 40 ∧
    score_screen_time [] ⟨some ["productive"], some ["distracting"], some 120⟩ = .ok 50 ∧
    (40 : ℚ) ≠ 50 := by
  refine ⟨?_, rfl, by norm_num⟩
  simp [exEntryNoApps, toFeatureRow, exCfg, screen_time_component, score_screen_time]
  norm_num

/-- Claim C3, counterexample: with one good and one bad occurrence at 100
points each, the other-good component is 100 while the formula claimed
by the spec (one raw value combining both counts) yields 50. -/
theorem c3_other_components_shared_raw_cex :
    other_good_component 1 100 100 ≠ spec_other_formula 1 1 100 100 := by
  norm_num [other_good_component, spec_other_formula, score_other]

/-- Claim C3, amended: the two other-habit components are not derived
from one combined raw value; each is score_other with the opposite
count zeroed, so other-good is clamp((good x good_points + 100) / 200 x
100) and other-bad is clamp((100 - bad x bad_points) / 200 x 100). -/
theorem c3_other_components_amended (g b gp bp : Int) :
    other_good_component g gp bp =
      max 0 (min 100 ((((g * gp : Int) : ℚ) + 100) / 200 * 100)) ∧
    other_bad_component b gp bp =
      max 0 (min 100 ((100 - ((b * bp : Int) : ℚ)) / 200 * 100)) := by
  constructor
  · simp [other_good_component, score_other]
  · simp [other_bad_component, score_other]
    ring_nf

/-- Claim C4, counterexample: with the mixed-sign weight mapping a to 1
and b to minus 1, whose sum is zero, scaling by the positive constant 2
changes the composite from 100 to 200, because the zero-sum fallback
divides by 1 instead of renormalizing. -/
theorem c4_weight_scaling_cex :
    weighted_baraka_score [("a", 100)] (scaleWeights 2 [("a", 1), ("b", -1)]) ≠
      weighted_baraka_score [("a", 100)] [("a", 1), ("b", -1)] := by
  have h1 : weighted_baraka_score [("a", 100)] (scaleWeights 2 [("a", 1), ("b", -1)]) = 200 := by
    simp [weighted_baraka_score, scaleWeights, dictGet, List.lookup]
    norm_num
  have h2 : weighted_baraka_score [("a", 100)] [("a", 1), ("b", -1)] = 100 := by
    simp [weighted_baraka_score, dictGet, List.lookup]
  rw [h1, h2]
  norm_num

/-- Claim C4, amended: for weight mappings with non-negative values (the
shape the Config data model prescribes), scaling all weights by a
positive constant leaves the composite unchanged. -/
theorem c4_weight_scaling_amended (components weights : List (String × ℚ)) (k : ℚ)
    (hw : ∀ kv ∈ weights, 0 ≤ kv.2) (hk : 0 < k) :
    weighted_baraka_score components (scaleWeights k weights) =
      weighted_baraka_score components weights := by
  unfold weighted_baraka_score
  rw [scaleWeights_sum]
  by_cases hs : (weights.map (fun kw => kw.2)).sum = 0
  · rw [hs]
    simp only [mul_zero, if_pos rfl]
    have hz := weights_all_zero_of_sum_zero weights hw hs
    rw [List.sum_eq_zero, List.sum_eq_zero]
    · intro q hq
      obtain ⟨kv, hkv, hq2⟩ := List.mem_map.mp hq
      rw [← hq2, hz kv hkv]
      ring
    · intro q hq
      obtain ⟨kv, hkv, hq2⟩ := List.mem_map.mp hq
      obtain ⟨kv0, hkv0, hkv2⟩ := List.mem_map.mp hkv
      rw [← hq2, ← hkv2]
      simp only [scaleWeights] at *
      rw [hz kv0 hkv0]
      ring
  · have hks : k * (weights.map (fun kw => kw.2)).sum ≠ 0 :=
      mul_ne_zero (ne_of_gt hk) hs
    dsimp only
    rw [if_neg hks, if_neg hs]
    unfold scaleWeights
    rw [List.map_map]
    congr 1
    apply List.map_congr_left
    intro kv hkv
    simp only [Function.comp]
    rw [mul_div_mul_left kv.2 _ (ne_of_gt hk)]

/-- Witness for the amended claim C4 at a concrete composite. -/
theorem c4_weight_scaling_amended_witness :
    (∀ kv ∈ [("prayer", (2 : ℚ)), ("sleep", 1)], 0 ≤ kv.2) ∧ (0 : ℚ) < 3 ∧
    weighted_baraka_score [("prayer", 80)] (scaleWeights 3 [("prayer", 2), ("sleep", 1)]) =
      weighted_baraka_score [("prayer", 80)] [("prayer", 2), ("sleep", 1)] :=
  ⟨by intro kv h; fin_cases h <;> norm_num, by norm_num,
   c4_weight_scaling_amended [("prayer", 80)] [("prayer", 2), ("sleep", 1)] 3
     (by intro kv h; fin_cases h <;> norm_num) (by norm_num)⟩

/-- Claim C5, counterexample: score_prayer performs no clamping, so a
prayer flag with the non-negative value 2 already drives the score to
200, outside the claimed 0 to 100 band. -/
theorem c5_score_prayer_unbounded_cex :
    score_prayer [("Fajr", 2)] = 200 ∧ ¬((200 : ℚ) ≤ 100) :=
  ⟨by norm_num [score_prayer], by norm_num⟩

/-- Claim C5, amended: every component scorer stays within 0 to 100 for
non-negative inputs and a valid policy config, with the prayer flags
additionally restricted to the boolean values 0 and 1 (score_prayer has
no clamp, so larger flag values escape the band); the scorers that
divide need a positive daily maximum and log scaling needs a positive
base other than 1; screen-time needs its three config keys present. -/
theorem c5_component_scores_bounded_amended :
    (∀ prayers : List (String × Int), (∀ kv ∈ prayers, kv.2 = 0 ∨ kv.2 = 1) →
      0 ≤ score_prayer prayers ∧ score_prayer prayers ≤ 100) ∧
    (∀ (recs : List QuranRec) (bp : ℚ) (m : Int),
      (∀ r ∈ recs, 0 ≤ r.ayahs) → 0 ≤ bp → 0 < m →
      ∃ s, score_quran recs bp m = .ok s ∧ 0 ≤ s ∧ s ≤ 100) ∧
    (∀ (reps : Int) (ppr : ℚ) (m : Int), 0 ≤ reps → 0 ≤ ppr → 0 < m →
      ∃ s, score_dhikr reps ppr m = .ok s ∧ 0 ≤ s ∧ s ≤ 100) ∧
    (∀ (a lb : ℝ) (ls : Bool), (ls = true → 0 < lb ∧ lb ≠ 1) →
      0 ≤ sadaqahVal a ls lb ∧ sadaqahVal a ls lb ≤ 100) ∧
    (∀ (h : Option ℚ) (bt : Option String) (im ix : ℚ) (bb : String) (m : Int),
      0 ≤ score_sleep h bt im ix bb m ∧ score_sleep h bt im ix bb m ≤ 100) ∧
    (∀ (am : List (String × ℚ)) (pa da : List String) (mdm : ℚ),
      ∃ s, score_screen_time am ⟨some pa, some da, some mdm⟩ = .ok s ∧ 0 ≤ s ∧ s ≤ 100) ∧
    (∀ g b gp bp : Int, 0 ≤ score_other g b gp bp ∧ score_other g b gp bp ≤ 100) :=
  ⟨score_prayer_bounds, score_quran_bounds, score_dhikr_bounds,
   sadaqahVal_bounds, score_sleep_bounds, score_screen_time_bounds,
   score_other_bounds⟩

/-- Witness for the amended claim C5 at concrete inputs for each
scorer. -/
theorem c5_component_scores_bounded_amended_witness :
    (0 ≤ score_prayer [("Fajr", 1), ("Dhuhr", 0)] ∧
      score_prayer [("Fajr", 1), ("Dhuhr", 0)] ≤ 100) ∧
    (∃ s, score_quran [⟨some "Al-Kahf", 10⟩] 1 100 = .ok s ∧ 0 ≤ s ∧ s ≤ 100) ∧
    (∃ s, score_dhikr 100 1 300 = .ok s ∧ 0 ≤ s ∧ s ≤ 100) ∧
    (0 ≤ sadaqahVal 50 true 2 ∧ sadaqahVal 50 true 2 ≤ 100) ∧
    (0 ≤ score_sleep (some 7) (some "22:00") 6 9 "23:00" 100 ∧
      score_sleep (some 7) (some "22:00") 6 9 "23:00" 100 ≤ 100) ∧
    (∃ s, score_screen_time [("Quran App", 30)]
      ⟨some ["Quran App"], some ["Twitter"], some 120⟩ = .ok s ∧ 0 ≤ s ∧ s ≤ 100) ∧
    (0 ≤ score_other 2 1 10 10 ∧ score_other 2 1 10 10 ≤ 100) :=
  ⟨c5_component_scores_bounded_amended.1 _ (by intro kv h; fin_cases h <;> norm_num),
   c5_component_scores_bounded_amended.2.1 _ _ _
     (by intro r h; fin_cases h <;> norm_num) (by norm_num) (by norm_num),
   c5_component_scores_bounded_amended.2.2.1 _ _ _ (by norm_num) (by norm_num) (by norm_num),
   c5_component_scores_bounded_amended.2.2.2.1 _ _ _
     (fun _ => ⟨by norm_num, by norm_num⟩),
   c5_component_scores_bounded_amended.2.2.2.2.1 _ _ _ _ _ _,
   c5_component_scores_bounded_amended.2.2.2.2.2.1 _ _ _ _,
   c5_component_scores_bounded_amended.2.2.2.2.2.2 _ _ _ _⟩

/-- Claim C6, code bug: the core entry points are not total.  With
screen-time data present but an empty config dict (an explicitly allowed
well-typed input per the spec), score_screen_time raises KeyError on its
first config index instead of returning a defined result. -/
theorem c6_score_screen_time_keyerror :
    score_screen_time [("WhatsApp", 30)] ⟨none, none, none⟩ =
      .error "KeyError: productive_apps" := rfl

/-- Claim C7, code bug: with an existing feature table of three
outcome-bearing rows (fewer than ten), train_and_analyze does not return
the insufficient_data report; it raises KeyError on avg_outcome, because
the correlation matrix is computed before the avg_outcome column is
added to the frame. -/
theorem c7_train_and_analyze_keyerror :
    train_and_analyze (some exFeatureTable) = .error "KeyError: avg_outcome" := by
  unfold train_and_analyze
  have hl : List.lookup "avg_outcome" (pdCorr exFeatureTable) = none := by
    unfold pdCorr
    apply lookup_map_pair_eq_none
    intro c hc
    fin_cases hc <;> decide
  have hlen : (exFeatureTable.filter hasOutcome).length < 10 := by decide
  dsimp only
  rw [if_pos hlen, hl]

/-- Claim C9, confirmed: whenever score_sadaqah returns a score for two
amounts under one fixed policy, the smaller amount never scores higher:
the charitable-giving score is monotonically non-decreasing in the
amount. -/
theorem c9_score_sadaqah_monotone (a b lb : ℝ) (ls : Bool) (m : Int) (sa sb : ℝ)
    (hab : a ≤ b)
    (ha : score_sadaqah a ls lb m = .ok sa)
    (hb : score_sadaqah b ls lb m = .ok sb) : sa ≤ sb := by
  have hmax : max 0 a ≤ max 0 b := max_le_max (le_refl 0) hab
  unfold score_sadaqah at ha hb
  by_cases ha0 : max 0 a ≤ 0
  · rw [if_pos ha0] at ha
    injection ha with ha2
    by_cases hb0 : max 0 b ≤ 0
    · rw [if_pos hb0] at hb
      injection hb with hb2
      rw [← ha2, ← hb2]
    · rw [if_neg hb0] at hb
      split at hb
      · exact absurd hb (by simp)
      · rename_i hbad
        injection hb with hb2
        rw [← ha2, ← hb2]
        refine (sadaqahVal_bounds b lb ls ?_).1
        intro hls
        rw [hls] at hbad
        push_neg at hbad
        exact hbad rfl
  · have hb0 : ¬(max 0 b ≤ 0) := fun hb2 => ha0 (le_trans hmax hb2)
    rw [if_neg ha0] at ha
    rw [if_neg hb0] at hb
    split at ha
    · exact absurd ha (by simp)
    · rename_i hbad
      split at hb
      · exact absurd hb (by simp)
      · injection ha with ha2
        injection hb with hb2
        rw [← ha2, ← hb2]
        apply sadaqahVal_mono a b lb ls hab
        intro hls
        rw [hls] at hbad
        push_neg at hbad
        exact hbad rfl

/-- Witness for claim C9 at the concrete amounts 2 and 3 with log scaling
in base 2. -/
theorem c9_score_sadaqah_monotone_witness :
    score_sadaqah 2 true 2 5 = .ok (sadaqahVal 2 true 2) ∧
    score_sadaqah 3 true 2 5 = .ok (sadaqahVal 3 true 2) ∧
    (2 : ℝ) ≤ 3 ∧
    sadaqahVal 2 true 2 ≤ sadaqahVal 3 true 2 := by
  have h2 : score_sadaqah 2 true 2 5 = .ok (sadaqahVal 2 true 2) := by
    unfold score_sadaqah
    rw [if_neg (by norm_num [max_le_iff]), if_neg (by norm_num)]
  have h3 : score_sadaqah 3 true 2 5 = .ok (sadaqahVal 3 true 2) := by
    unfold score_sadaqah
    rw [if_neg (by norm_num [max_le_iff]), if_neg (by norm_num)]
  exact ⟨h2, h3, by norm_num,
    c9_score_sadaqah_monotone 2 3 2 true 5 _ _ (by norm_num) h2 h3⟩

/-- Claim C10, confirmed: score_sadaqah never reads its max_daily_points
parameter, so any two values of it produce identical results. -/
theorem c10_score_sadaqah_ignores_max_daily_points (amount : ℝ) (log_scale : Bool)
    (log_base : ℝ) (a b : Int) :
    score_sadaqah amount log_scale log_base a =
      score_sadaqah amount log_scale log_base b := rfl
